import Mathlib

/-!
Verification of the universal-cloud-connector bridge core.

The repository is a stdio ⟷ HTTP/SSE JSON-RPC bridge.  Its source exists in
several successive drafts: `src/index.ts` holds two concatenated drafts of the
connector, and a further draft of the same file (the one the architecture
notes dated December 6, 2025 describe as the current, fixed version: 10-second
handshake timeout that throws, pending-table cleanup inside `sendRequest`)
is present as an unnamed source file.  The definitions below embed that latest
draft; where an earlier draft behaves differently (handshake-timeout fallback,
error cleanup, process exit on retry exhaustion) the difference is noted and,
when relevant, modelled separately.

Modelling conventions:
* JS `Map` becomes an association list in insertion order (`pset` replaces in
  place like `Map.set`, `pdel` removes the key like `Map.delete`).
* JS `Set` becomes a duplicate-free list in insertion order; oldest-first
  eviction is `List.drop` at the front.
* Side effects (stdout writes, stderr diagnostics, HTTP POSTs, timers,
  process exit) become an explicit `Action` trace.
* The concurrent "has the session id arrived yet" polling loop is modelled by
  a function `received : Nat → Bool` giving the value of the
  `sessionIdReceived` flag at each poll iteration.
-/

namespace UCC

/-- JSON-RPC identifiers: `id?: string | number`. -/
inductive RpcId where
  | str : String → RpcId
  | num : Int → RpcId
deriving DecidableEq

/-- String form of an id, as produced by JS template interpolation. -/
def RpcId.render : RpcId → String
  | .str s => s
  | .num n => toString n

/-- The `initializationOptions` object read from the first request. -/
structure InitConfig where
  server_url : Option String
  api_token : Option String
deriving DecidableEq

/-- A stream-side JSON-RPC request, reduced to the fields the bridge reads. -/
structure Request where
  id : Option RpcId
  method : String
  initOpts : Option InitConfig
deriving DecidableEq

/-- A push-channel payload after `JSON.parse`: the fields the `onmessage`
handler inspects, plus `ser`, its canonical serialization
(`JSON.stringify(data)`). -/
structure PushMsg where
  id : Option RpcId
  hasResult : Bool
  hasError : Bool
  ser : String
deriving DecidableEq

/-- Raw data of a push-channel message event: either it fails `JSON.parse`
or it parses to a `PushMsg`. -/
inductive SSEData where
  | malformed : String → SSEData
  | parsed : PushMsg → SSEData
deriving DecidableEq

/-- A push message is a well-formed Response when it has `result` or `error`,
and an `id` (`(data.result !== undefined || data.error !== undefined) &&
data.id !== undefined`). -/
def SSEData.isResponse : SSEData → Bool
  | .malformed _ => false
  | .parsed m => (m.hasResult || m.hasError) && m.id.isSome

/-- Observable effects of the connector, in program order. -/
inductive Action where
  /-- Bytes written to the protocol output stream (stdout). -/
  | stdoutWrite : String → Action
  /-- A synthesized JSON-RPC error response written to stdout:
  id, error code, error message. -/
  | stdoutErr : Option RpcId → Int → String → Action
  /-- An HTTP POST to the messages URL, carrying the session token currently
  attached as the `session_id` query parameter, and the request payload. -/
  | post : Option String → Request → Action
  /-- A diagnostic line on the side channel (stderr); the payload is a label
  for the log site, not the literal text. -/
  | logLine : String → Action
  /-- `process.exit` with the given code. -/
  | exitCode : Nat → Action
  /-- `setTimeout(() => this.connectSSE(), delay)`: a reconnect scheduled
  after the given delay in milliseconds. -/
  | scheduleReconnect : Nat → Action
  /-- `connector.sendRequest(request)` initiated by `main`. -/
  | dispatchStart : Request → Action
deriving DecidableEq

/-- Stream-side (stdout) writes of an action. -/
def Action.isStreamWrite : Action → Bool
  | .stdoutWrite _ => true
  | .stdoutErr _ _ _ => true
  | _ => false

/-- Diagnostic side-channel writes. -/
def Action.isLog : Action → Bool
  | .logLine _ => true
  | _ => false

/-- HTTP POST actions. -/
def Action.isPost : Action → Bool
  | .post _ _ => true
  | _ => false

/-- Extract the code of a `process.exit` action. -/
def Action.exitOf : Action → Option Nat
  | .exitCode n => some n
  | _ => none

/-- Extract the delay of a scheduled reconnect. -/
def Action.delayOf : Action → Option Nat
  | .scheduleReconnect d => some d
  | _ => none

/-- Delays of the reconnects scheduled in a trace, in order. -/
def delaysOf (acts : List Action) : List Nat := acts.filterMap Action.delayOf

/-- Exit codes of the `process.exit` calls in a trace. -/
def exitsOf (acts : List Action) : List Nat := acts.filterMap Action.exitOf

/-- Lookup in the pending-request table (`Map.get` / `Map.has`). -/
def pfind (k : RpcId) : List (RpcId × Request) → Option Request
  | [] => none
  | e :: es => if e.1 = k then some e.2 else pfind k es

/-- `Map.has`. -/
def phas (k : RpcId) (l : List (RpcId × Request)) : Bool := (pfind k l).isSome

/-- `Map.delete`: remove the entry with the given key. -/
def pdel (k : RpcId) (l : List (RpcId × Request)) : List (RpcId × Request) :=
  l.filter (fun e => decide (e.1 ≠ k))

/-- `Map.set`: replace in place if the key is present, else append. -/
def pset (k : RpcId) (v : Request) : List (RpcId × Request) → List (RpcId × Request)
  | [] => [(k, v)]
  | e :: es => if e.1 = k then (k, v) :: es else e :: pset k v es

/-- Bound of the duplicate-suppression cache (`keep only recent 1000`). -/
def CACHE_BOUND : Nat := 1000

/-- Oldest-first eviction: `if (size > 1000) delete the first size - 1000
keys in insertion order`. -/
def evict (cache : List String) : List String :=
  if cache.length > CACHE_BOUND then cache.drop (cache.length - CACHE_BOUND) else cache

/-- Duplicate fingerprint of a response, exactly the source's
`messageKey = id + ":" + JSON.stringify(data)`. -/
def fingerprint (i : RpcId) (m : PushMsg) : String := i.render ++ ":" ++ m.ser

/-- Mutable state of `UniversalConnector` (the fields the claims concern). -/
structure Connector where
  retryCount : Nat
  shouldReconnect : Bool
  pendingRequests : List (RpcId × Request)
  processedMessageIds : List String
  sessionId : Option String
  sessionIdReceived : Bool
deriving DecidableEq

/-- Freshly constructed connector. -/
def Connector.init : Connector :=
  { retryCount := 0
    shouldReconnect := true
    pendingRequests := []
    processedMessageIds := []
    sessionId := none
    sessionIdReceived := false }

/-- The `onmessage` handler of the SSE connection (latest draft; the logic is
identical in the second draft of `index.ts`): parse, require `result`/`error`
and an `id`, suppress duplicate fingerprints with bounded oldest-first
eviction, forward only responses whose id is pending, and remove the pending
entry when forwarding. -/
def onPushMessage (c : Connector) (d : SSEData) : Connector × List Action :=
  match d with
  | .malformed _ => (c, [.logLine "sse parse failure"])
  | .parsed m =>
    match m.id with
    | some i =>
      if m.hasResult || m.hasError then
        let key := fingerprint i m
        if key ∈ c.processedMessageIds then
          (c, [.logLine "duplicate skipped"])
        else
          let cache := evict (c.processedMessageIds ++ [key])
          if phas i c.pendingRequests then
            ({ c with processedMessageIds := cache
                      pendingRequests := pdel i c.pendingRequests },
             [.stdoutWrite (m.ser ++ "\n")])
          else
            ({ c with processedMessageIds := cache }, [.logLine "unmatched id"])
      else
        (c, [.logLine "non-rpc message"])
    | none => (c, [.logLine "non-rpc message"])

/-- Deliver the same raw datum `n` times in a row, collecting the trace. -/
def deliverN (c : Connector) (d : SSEData) : Nat → Connector × List Action
  | 0 => (c, [])
  | n + 1 =>
    let s1 := onPushMessage c d
    let s2 := deliverN s1.1 d n
    (s2.1, s1.2 ++ s2.2)

/-- `MAX_RETRIES = 5`. -/
def MAX_RETRIES : Nat := 5

/-- `RETRY_DELAY_MS = 1000`. -/
def RETRY_DELAY_MS : Nat := 1000

/-- The `onerror` handler of the SSE connection (latest draft): log and close,
then either schedule a reconnect after `RETRY_DELAY_MS * 2 ^ (retryCount - 1)`
milliseconds, or — once `retryCount` has reached `MAX_RETRIES` — give up by
disabling reconnection.  Only the first draft of `index.ts` called
`process.exit(1)` here; in both later drafts the call is commented out, so
the give-up branch emits no `Action.exitCode`. -/
def onError (c : Connector) : Connector × List Action :=
  if c.shouldReconnect = true ∧ c.retryCount < MAX_RETRIES then
    let rc := c.retryCount + 1
    ({ c with retryCount := rc },
     [.logLine "sse connection error",
      .scheduleReconnect (RETRY_DELAY_MS * 2 ^ (rc - 1))])
  else if c.shouldReconnect = true then
    ({ c with shouldReconnect := false },
     [.logLine "sse connection error", .logLine "giving up"])
  else
    (c, [.logLine "sse connection error"])

/-- `n` consecutive connection failures in a row, collecting the trace. -/
def runErrors (c : Connector) : Nat → Connector × List Action
  | 0 => (c, [])
  | n + 1 =>
    let s1 := onError c
    let s2 := runErrors s1.1 n
    (s2.1, s1.2 ++ s2.2)

/-- A list of naturals is non-decreasing. -/
def nondecreasing : List Nat → Bool
  | [] => true
  | [_] => true
  | a :: b :: t => decide (a ≤ b) && nondecreasing (b :: t)

/-- A connector still holding a prior connection's token ("aa"), used as a
concrete configuration in reconnect statements. -/
def connPrior : Connector :=
  { Connector.init with sessionId := some "aa", sessionIdReceived := true }

/-- Connection-lifecycle events delivered to the connector's handlers.
An `endpointEv (some tok)` is an endpoint announcement whose data matched
the strict `session_id=([a-f0-9]+, 32 chars)` pattern, yielding `tok`;
`endpointEv none` is an announcement with no extractable session id. -/
inductive Ev where
  | connOpen
  | endpointEv : Option String → Ev
  | push : SSEData → Ev
  | connErr
deriving DecidableEq

/-- One event through the corresponding handler.  `onopen` resets the retry
counter, clears the duplicate cache and unsets the session token and its
received flag; the endpoint handler publishes the token; `onmessage` and
`onerror` are the handlers modelled above. -/
def stepEv (c : Connector) (e : Ev) : Connector :=
  match e with
  | .connOpen =>
    { c with retryCount := 0, processedMessageIds := [],
             sessionId := none, sessionIdReceived := false }
  | .endpointEv (some tok) =>
    { c with sessionId := some tok, sessionIdReceived := true }
  | .endpointEv none => c
  | .push d => (onPushMessage c d).1
  | .connErr => (onError c).1

/-- Run a sequence of events. -/
def runEvs (c : Connector) (evs : List Ev) : Connector := evs.foldl stepEv c

/-- `maxAttempts = 1000` poll iterations of 10 ms in `waitForSessionId`
(latest draft: a 10-second bound). -/
def MAX_WAIT_ATTEMPTS : Nat := 1000

/-- The polling loop of `waitForSessionId`: starting from `attempts = a`,
return the value of `attempts` when the loop exits.  `received i` is the
value of the `sessionIdReceived` flag observed at iteration `i` (the flag is
set concurrently by the endpoint handler).  The fuel argument only bounds the
recursion; `MAX_WAIT_ATTEMPTS + 1` suffices to reach the loop bound. -/
def waitFrom (received : Nat → Bool) : Nat → Nat → Nat
  | a, 0 => a
  | a, fuel + 1 =>
    if received a then a
    else if a < MAX_WAIT_ATTEMPTS then waitFrom received (a + 1) fuel
    else a

/-- Value of `attempts` when the `waitForSessionId` loop exits. -/
def waitExit (received : Nat → Bool) : Nat :=
  waitFrom received 0 (MAX_WAIT_ATTEMPTS + 1)

/-- Value of the `sessionIdReceived` flag checked after the loop:
`true` means the handshake reached Ready, `false` means `waitForSessionId`
throws its timeout error (latest draft). -/
def waitOk (received : Nat → Bool) : Bool := received (waitExit received)

/-- Outcome of the `fetch` POST. -/
inductive HttpOutcome where
  /-- `response.ok` (e.g. 202 Accepted). -/
  | accepted
  /-- Non-success HTTP status. -/
  | statusFail : Nat → HttpOutcome
  /-- The send threw a transport error. -/
  | netFail
deriving DecidableEq

/-- Body of `sendRequest` (latest draft) once the handshake wait has
succeeded: exactly one HTTP POST carrying the current session token; on a
non-ok status or a thrown transport error the pending entry for the payload
id is removed and the failure logged; an accepted POST leaves the entry in
place for the SSE response to consume. -/
def sendAfterReady (c1 : Connector) (req : Request) (outcome : HttpOutcome) :
    Connector × List Action :=
  let acts := [Action.post c1.sessionId req]
  match outcome with
  | .accepted => (c1, acts)
  | .statusFail _ =>
    (match req.id with
     | some i => { c1 with pendingRequests := pdel i c1.pendingRequests }
     | none => c1,
     acts ++ [.logLine "post status failure"])
  | .netFail =>
    (match req.id with
     | some i => { c1 with pendingRequests := pdel i c1.pendingRequests }
     | none => c1,
     acts ++ [.logLine "post transport failure"])

/-- A post-initialization dispatch (latest draft): `main` inserts the id into
the Pending-Request Table before calling `sendRequest`; `sendRequest` first
waits for the session id and throws on timeout, which the caller's `.catch`
handles by logging and deleting the entry, so no HTTP call happens on
timeout. -/
def dispatch (c : Connector) (req : Request) (received : Nat → Bool)
    (outcome : HttpOutcome) : Connector × List Action :=
  let c1 := match req.id with
    | some i => { c with pendingRequests := pset i req c.pendingRequests }
    | none => c
  if waitOk received then sendAfterReady c1 req outcome
  else
    (match req.id with
     | some i => { c1 with pendingRequests := pdel i c1.pendingRequests }
     | none => c1,
     [.logLine "handshake timeout", .logLine "dispatch error"])

/-- The dispatch of the very first `initialize` request (latest draft): the
id is inserted before `connector.start()`, but the `.catch` attached to this
particular send only logs — it does not delete the entry — so a handshake
timeout leaves the table entry in place. -/
def dispatchInit (c : Connector) (req : Request) (received : Nat → Bool)
    (outcome : HttpOutcome) : Connector × List Action :=
  let c1 := match req.id with
    | some i => { c with pendingRequests := pset i req c.pendingRequests }
    | none => c
  if waitOk received then sendAfterReady c1 req outcome
  else (c1, [.logLine "handshake timeout", .logLine "init dispatch error"])

/-- `sendRequest` of the superseded second draft of `index.ts`: on POST
failure it only logs ("let the caller handle cleanup"), leaving the table
untouched; and since it swallows the error, the caller's `.catch` cleanup
never runs. -/
def sendAfterReadyDraft2 (c1 : Connector) (req : Request) (outcome : HttpOutcome) :
    Connector × List Action :=
  let acts := [Action.post c1.sessionId req]
  match outcome with
  | .accepted => (c1, acts)
  | .statusFail _ => (c1, acts ++ [.logLine "post status failure"])
  | .netFail => (c1, acts ++ [.logLine "post transport failure"])

/-- A dispatch in the superseded second draft of `index.ts`: on handshake
timeout `waitForSessionId` does not throw — it fabricates a fallback session
id (`randomUUID()`, here the parameter `fresh`), marks the handshake
complete, and the POST proceeds anyway with that token. -/
def dispatchDraft2 (c : Connector) (req : Request) (received : Nat → Bool)
    (fresh : String) (outcome : HttpOutcome) : Connector × List Action :=
  let c1 := match req.id with
    | some i => { c with pendingRequests := pset i req c.pendingRequests }
    | none => c
  let c2 := if waitOk received then c1
            else { c1 with sessionId := some fresh, sessionIdReceived := true }
  sendAfterReadyDraft2 c2 req outcome

/-- The environment variables the initialize handler consults
(`server_url`, `SERVER_URL`, `api_token`, `API_TOKEN`). -/
structure EnvVars where
  server_url_lower : Option String
  server_url_upper : Option String
  api_token_lower : Option String
  api_token_upper : Option String
deriving DecidableEq

/-- JS truthiness of an optional string: `undefined` and `""` are falsy. -/
def truthy : Option String → Option String
  | some s => if s = "" then none else some s
  | none => none

/-- JS `a || b` over optional strings. -/
def orT (a b : Option String) : Option String :=
  match truthy a with
  | some s => some s
  | none => truthy b

/-- `config.server_url || process.env.server_url || process.env.SERVER_URL`. -/
def resolveUrl (cfg : Option InitConfig) (env : EnvVars) : Option String :=
  orT (match cfg with | some k => k.server_url | none => none)
      (orT env.server_url_lower env.server_url_upper)

/-- `config.api_token || process.env.api_token || process.env.API_TOKEN`. -/
def resolveTok (cfg : Option InitConfig) (env : EnvVars) : Option String :=
  orT (match cfg with | some k => k.api_token | none => none)
      (orT env.api_token_lower env.api_token_upper)

/-- State of `main`'s stdin handler. -/
structure MainState where
  isInit : Bool
  connector : Option Connector
deriving DecidableEq

/-- `main` before any line has been processed. -/
def MainState.start : MainState := { isInit := false, connector := none }

/-- A complete non-blank stdin line after the framing split: either it fails
`JSON.parse` (this also covers an `initialize` whose missing `params` object
makes the handler throw, caught by the same catch) or it parses to a
request. -/
inductive StreamLine where
  | malformed : String → StreamLine
  | req : Request → StreamLine
deriving DecidableEq

/-- One parsed stdin line through `main`'s data handler (latest draft).
`Action.dispatchStart` records that `connector.sendRequest` was initiated
(the send itself is modelled by `dispatch` / `dispatchInit`); the branch
structure mirrors the source: initialize-when-uninitialized, then
initialized-with-connector, then the uninitialized fallback that synthesizes
a `-32002 "Server not initialized"` error response. -/
def processLine (env : EnvVars) (s : MainState) (d : StreamLine) :
    MainState × List Action :=
  match d with
  | .malformed _ => (s, [.logLine "stdin parse failure"])
  | .req r =>
    if s.isInit = false ∧ r.method = "initialize" then
      match resolveUrl r.initOpts env, resolveTok r.initOpts env with
      | some _, some _ =>
        let c0 := Connector.init
        let c1 := match r.id with
          | some i => { c0 with pendingRequests := pset i r c0.pendingRequests }
          | none => c0
        ({ isInit := true, connector := some c1 },
         [.logLine "connector started", .dispatchStart r])
      | some _, none =>
        (s, [.logLine "config missing",
             .stdoutErr r.id (-32002) "Server not initialized", .exitCode 1])
      | none, _ =>
        (s, [.logLine "config missing",
             .stdoutErr r.id (-32002) "Server not initialized", .exitCode 1])
    else if s.isInit = true ∧ s.connector.isSome then
      match s.connector with
      | some c =>
        let c1 := match r.id with
          | some i => { c with pendingRequests := pset i r c.pendingRequests }
          | none => c
        ({ s with connector := some c1 }, [.logLine "tracked", .dispatchStart r])
      | none => (s, [])
    else if s.isInit = false then
      (s, [.stdoutErr r.id (-32002) "Server not initialized"])
    else (s, [])

/-- Characters of a JS string, for the framing layer. -/
abbrev Str := List Char

/-- `buffer.split("\n")`: split at every newline.  Always non-empty; the
last element is the segment after the final newline (possibly empty). -/
def splitNl : Str → List Str
  | [] => [[]]
  | ch :: cs =>
    if ch = '\n' then [] :: splitNl cs
    else
      match splitNl cs with
      | [] => [[ch]]
      | s :: rest => (ch :: s) :: rest

/-- All parts except the last: the complete lines of the split. -/
def initParts : List Str → List Str
  | [] => []
  | [_] => []
  | x :: xs => x :: initParts xs

/-- The last part: `lines.pop() || ""`, the retained partial segment. -/
def lastPart : List Str → Str
  | [] => []
  | [x] => x
  | _ :: xs => lastPart xs

/-- `line.trim()` is empty: the line consists of whitespace only, so the
handler skips it. -/
def isBlank (l : Str) : Bool := l.all Char.isWhitespace

/-- One `data` chunk through the stdin framing handler, translated from the
source: append the chunk to the buffer, split on `\n`, retain the trailing
segment (`lines.pop() || ""`) as the new buffer, and for every complete
non-blank line attempt a parse, keeping successes in order (parse failures
are logged and dropped, and do not poison later lines).  The state is
(buffer, values decoded so far); `parse` abstracts `JSON.parse`. -/
def feed {V : Type} (parse : Str → Option V) (st : Str × List V) (chunk : Str) :
    Str × List V :=
  let parts := splitNl (st.1 ++ chunk)
  (lastPart parts,
   st.2 ++ (initParts parts).filterMap
     (fun l => if isBlank l then none else parse l))

/-- Character-level restatement of the same handler, used to prove that
`feed` composes over chunk boundaries: a newline terminates the buffered
line (parsed when non-blank), any other character extends the buffer. -/
def feedChar {V : Type} (parse : Str → Option V) (st : Str × List V) (ch : Char) :
    Str × List V :=
  if ch = '\n' then
    ([], st.2 ++ (if isBlank st.1 then [] else (parse st.1).toList))
  else (st.1 ++ [ch], st.2)

/-- Encode a sequence of values the way the bridge writes responses:
each serialization followed by a single newline
(`stdout.write(JSON.stringify(data) + "\n")`), concatenated. -/
def encodeAll {V : Type} (serialize : V → Str) (vs : List V) : Str :=
  (vs.map (fun v => serialize v ++ ['\n'])).flatten

end UCC

namespace UCC

/-! Theorems about the push-message handler. -/

theorem pfind_pdel (i : RpcId) (l : List (RpcId × Request)) :
    pfind i (pdel i l) = none := by
  induction l with
  | nil => rfl
  | cons e es ih =>
    by_cases h : e.1 = i
    · simpa [pdel, h] using ih
    · simpa [pdel, pfind, h] using ih

theorem mem_evict_append (l : List String) (a : String) :
    a ∈ evict (l ++ [a]) := by
  unfold evict CACHE_BOUND
  by_cases h : (l ++ [a]).length > 1000
  · have hb : (1 : Nat) ≤ 1000 := by omega
    have hlen : (l ++ [a]).length - 1000 ≤ l.length := by
      rw [List.length_append, List.length_singleton]
      omega
    simp only [CACHE_BOUND] at h ⊢
    rw [if_pos h, List.drop_append_of_le_length hlen]
    exact List.mem_append_right _ (List.mem_singleton.mpr rfl)
  · simp only [CACHE_BOUND] at h ⊢
    rw [if_neg h]
    exact List.mem_append_right _ (List.mem_singleton.mpr rfl)

theorem evict_eq_drop (l : List String) :
    evict l = l.drop (l.length - CACHE_BOUND) := by
  unfold evict
  split
  · rfl
  · next h =>
    have : l.length - CACHE_BOUND = 0 := by omega
    rw [this, List.drop_zero]

theorem evict_length (l : List String) :
    (evict l).length = min l.length CACHE_BOUND := by
  rw [evict_eq_drop, List.length_drop]
  omega

theorem dup_skip (c : Connector) (m : PushMsg) (i : RpcId)
    (him : m.id = some i) (hwf : (m.hasResult || m.hasError) = true)
    (hdup : fingerprint i m ∈ c.processedMessageIds) :
    onPushMessage c (.parsed m) = (c, [.logLine "duplicate skipped"]) := by
  simp [onPushMessage, him, hwf, hdup]

theorem deliverN_dup (c : Connector) (m : PushMsg) (i : RpcId) (n : Nat)
    (him : m.id = some i) (hwf : (m.hasResult || m.hasError) = true)
    (hdup : fingerprint i m ∈ c.processedMessageIds) :
    deliverN c (.parsed m) n
      = (c, List.replicate n (.logLine "duplicate skipped")) := by
  induction n with
  | zero => simp [deliverN]
  | succ k ih =>
    simp [deliverN, dup_skip c m i him hwf hdup, ih, List.replicate_succ]

theorem first_insert (c : Connector) (m : PushMsg) (i : RpcId)
    (him : m.id = some i) (hwf : (m.hasResult || m.hasError) = true)
    (hnew : fingerprint i m ∉ c.processedMessageIds) :
    fingerprint i m ∈ (onPushMessage c (.parsed m)).1.processedMessageIds := by
  by_cases hp : phas i c.pendingRequests
  · simp only [onPushMessage, him, hwf, if_true, hnew, if_neg hnew, hp]
    simpa using mem_evict_append c.processedMessageIds (fingerprint i m)
  · simp only [onPushMessage, him, hwf, if_true, hnew, if_neg hnew, hp]
    simpa using mem_evict_append c.processedMessageIds (fingerprint i m)

/-- Claim C2 counterexample: a single delivery of the well-formed response
with id 1 and payload serialization "r1", on a fresh connection with an empty
Pending-Request Table, forwards zero copies to the stream side, not exactly
one as the claim states. -/
theorem c2_counterexample :
    ¬ ((((deliverN Connector.init
        (.parsed { id := some (.num 1), hasResult := true, hasError := false,
                   ser := "r1" }) 1).2).filter Action.isStreamWrite).length = 1) := by
  decide

/-- Claim C2 (amended): for any well-formed Response fingerprint delivered
N ≥ 1 times on the push channel within one connection's duplicate-cache
window (the fingerprint is not yet cached), at most one copy is forwarded to
the stream-side output — exactly one when the response id is present in the
Pending-Request Table at the first delivery, and zero otherwise; every
subsequent delivery of the same fingerprint on that connection is silently
discarded. -/
theorem c2_at_most_one_forward (c : Connector) (m : PushMsg) (i : RpcId) (n : Nat)
    (him : m.id = some i) (hwf : (m.hasResult || m.hasError) = true)
    (hnew : fingerprint i m ∉ c.processedMessageIds) (hn : 1 ≤ n) :
    ((deliverN c (.parsed m) n).2.filter Action.isStreamWrite)
      = if phas i c.pendingRequests
        then [.stdoutWrite (m.ser ++ "\n")] else [] := by
  obtain ⟨k, rfl⟩ : ∃ k, n = k + 1 := ⟨n - 1, by omega⟩
  have hmem := first_insert c m i him hwf hnew
  by_cases hp : phas i c.pendingRequests
  · have hstep : onPushMessage c (.parsed m)
        = ({ c with processedMessageIds :=
                      evict (c.processedMessageIds ++ [fingerprint i m])
                    pendingRequests := pdel i c.pendingRequests },
           [.stdoutWrite (m.ser ++ "\n")]) := by
      simp [onPushMessage, him, hwf, hnew, hp]
    have hrest := deliverN_dup (onPushMessage c (.parsed m)).1 m i k him hwf hmem
    simp only [deliverN, hrest]
    rw [hstep] at hrest ⊢
    simp [hrest, hp, List.filter_append, Action.isStreamWrite,
          List.filter_replicate]
  · have hstep : onPushMessage c (.parsed m)
        = ({ c with processedMessageIds :=
                      evict (c.processedMessageIds ++ [fingerprint i m]) },
           [.logLine "unmatched id"]) := by
      simp [onPushMessage, him, hwf, hnew, hp]
    have hrest := deliverN_dup (onPushMessage c (.parsed m)).1 m i k him hwf hmem
    simp only [deliverN, hrest]
    rw [hstep] at hrest ⊢
    simp [hrest, hp, List.filter_append, Action.isStreamWrite,
          List.filter_replicate]

/-- Claim C2 witness: a response with id 1 pending, delivered twice, is
forwarded exactly once. -/
theorem c2_witness :
    ((deliverN
        { Connector.init with
            pendingRequests :=
              [(.num 1, { id := some (.num 1), method := "ping", initOpts := none })] }
        (.parsed { id := some (.num 1), hasResult := true, hasError := false,
                   ser := "pong" }) 2).2.filter Action.isStreamWrite)
      = if phas (.num 1)
            ({ Connector.init with
                 pendingRequests :=
                   [(.num 1, { id := some (.num 1), method := "ping", initOpts := none })] } :
               Connector).pendingRequests
        then [.stdoutWrite ("pong" ++ "\n")] else [] :=
  c2_at_most_one_forward _ _ (.num 1) 2 rfl rfl (by decide) (by decide)

/-- Claim C3: a well-formed Response whose id is not present in the
Pending-Request Table at delivery time is never written to the stream-side
output — the handler only logs it — and when the id is present (and the
fingerprint is new within the cache window, so the message is actually
forwarded), forwarding writes exactly the response line and removes the
pending entry. -/
theorem c3_no_forward_without_match (c : Connector) (m : PushMsg) (i : RpcId)
    (him : m.id = some i) (hwf : (m.hasResult || m.hasError) = true) :
    (phas i c.pendingRequests = false →
       ((onPushMessage c (.parsed m)).2.filter Action.isStreamWrite = []
        ∧ ∀ a ∈ (onPushMessage c (.parsed m)).2, a.isLog = true))
    ∧ (fingerprint i m ∉ c.processedMessageIds →
       phas i c.pendingRequests = true →
       ((onPushMessage c (.parsed m)).2.filter Action.isStreamWrite
           = [.stdoutWrite (m.ser ++ "\n")]
        ∧ phas i (onPushMessage c (.parsed m)).1.pendingRequests = false)) := by
  constructor
  · intro hp
    by_cases hdup : fingerprint i m ∈ c.processedMessageIds
    · simp [onPushMessage, him, hwf, hdup, Action.isLog, Action.isStreamWrite]
    · simp [onPushMessage, him, hwf, hdup, hp, Action.isLog, Action.isStreamWrite]
  · intro hdup hp
    have hp' : (pfind i c.pendingRequests).isSome = true := hp
    simp [onPushMessage, him, hwf, hdup, phas, hp', Action.isStreamWrite,
          pfind_pdel]

/-- Claim C3 witness: a response for the never-dispatched id 9 on a fresh
connection is not written to the output stream, and a response for the
pending id 1 is forwarded and consumes the table entry. -/
theorem c3_witness :
    ((onPushMessage Connector.init
        (.parsed { id := some (.num 9), hasResult := true, hasError := false,
                   ser := "r9" })).2.filter Action.isStreamWrite = [])
    ∧ ∀ a ∈ (onPushMessage Connector.init
        (.parsed { id := some (.num 9), hasResult := true, hasError := false,
                   ser := "r9" })).2, a.isLog = true :=
  (c3_no_forward_without_match Connector.init
    { id := some (.num 9), hasResult := true, hasError := false, ser := "r9" }
    (.num 9) rfl rfl).1 (by decide)

/-- Claim C4: any push-channel message that is not a well-formed Response
(no `result`/`error`, or no `id`, or unparseable) is never forwarded to the
stream-side output: the handler leaves the connector state unchanged and
only logs on the diagnostic side channel. -/
theorem c4_non_response_never_forwarded (c : Connector) (d : SSEData)
    (h : d.isResponse = false) :
    ((onPushMessage c d).2.filter Action.isStreamWrite = [])
    ∧ (∀ a ∈ (onPushMessage c d).2, a.isLog = true)
    ∧ (onPushMessage c d).1 = c := by
  cases d with
  | malformed s =>
    simp [onPushMessage, Action.isLog, Action.isStreamWrite]
  | parsed m =>
    cases hid : m.id with
    | none => simp [onPushMessage, hid, Action.isLog, Action.isStreamWrite]
    | some i =>
      simp only [SSEData.isResponse, hid, Option.isSome_some, Bool.and_true] at h
      simp [onPushMessage, hid, h, Action.isLog, Action.isStreamWrite]

/-- Claim C4 witness: the status ping `data = (status connected)` — parsed,
no id, no result, no error — is dropped with zero bytes written to the
output stream and no state change. -/
theorem c4_witness :
    ((onPushMessage Connector.init
        (.parsed { id := none, hasResult := false, hasError := false,
                   ser := "status-connected" })).2.filter Action.isStreamWrite = [])
    ∧ (∀ a ∈ (onPushMessage Connector.init
        (.parsed { id := none, hasResult := false, hasError := false,
                   ser := "status-connected" })).2, a.isLog = true)
    ∧ (onPushMessage Connector.init
        (.parsed { id := none, hasResult := false, hasError := false,
                   ser := "status-connected" })).1 = Connector.init :=
  c4_non_response_never_forwarded Connector.init _ (by decide)

/-- Claim C9: starting from a cache within the 1000-entry bound, after
processing any push message the Duplicate Suppression Cache still holds at
most 1000 fingerprints; the new cache is an oldest-first truncation (a
`List.drop` at the front) of the old cache extended by at most one inserted
fingerprint, and its length is exactly `min (old + inserted) 1000` — so once
the bound is exceeded exactly the 1000 most-recent entries remain. -/
theorem c9_cache_bound (c : Connector) (d : SSEData)
    (h : c.processedMessageIds.length ≤ CACHE_BOUND) :
    ((onPushMessage c d).1.processedMessageIds.length ≤ CACHE_BOUND)
    ∧ ∃ ins k, ins.length ≤ 1
        ∧ (onPushMessage c d).1.processedMessageIds
            = (c.processedMessageIds ++ ins).drop k
        ∧ (onPushMessage c d).1.processedMessageIds.length
            = min (c.processedMessageIds.length + ins.length) CACHE_BOUND := by
  have hkeep : ∀ cache : List String, cache = c.processedMessageIds →
      (cache.length ≤ CACHE_BOUND
       ∧ ∃ ins k, ins.length ≤ 1 ∧ cache = (c.processedMessageIds ++ ins).drop k
           ∧ cache.length = min (c.processedMessageIds.length + ins.length) CACHE_BOUND) := by
    intro cache hc
    subst hc
    exact ⟨h, [], 0, by simp, by simp, by simpa using (Nat.min_eq_left h).symm⟩
  have hins : ∀ key : String,
      ((evict (c.processedMessageIds ++ [key])).length ≤ CACHE_BOUND
       ∧ ∃ ins k, ins.length ≤ 1
           ∧ evict (c.processedMessageIds ++ [key]) = (c.processedMessageIds ++ ins).drop k
           ∧ (evict (c.processedMessageIds ++ [key])).length
               = min (c.processedMessageIds.length + ins.length) CACHE_BOUND) := by
    intro key
    refine ⟨?_, [key], (c.processedMessageIds ++ [key]).length - CACHE_BOUND,
            by simp, evict_eq_drop _, ?_⟩
    · rw [evict_length]; omega
    · rw [evict_length]; simp
  cases d with
  | malformed s => exact hkeep _ rfl
  | parsed m =>
    cases hid : m.id with
    | none =>
      have heq : onPushMessage c (.parsed m) = (c, [.logLine "non-rpc message"]) := by
        simp [onPushMessage, hid]
      rw [heq]
      exact hkeep _ rfl
    | some i =>
      by_cases hwf : (m.hasResult || m.hasError) = true
      · by_cases hdup : fingerprint i m ∈ c.processedMessageIds
        · rw [dup_skip c m i hid hwf hdup]
          exact hkeep _ rfl
        · by_cases hp : phas i c.pendingRequests
          · have heq : (onPushMessage c (.parsed m)).1.processedMessageIds
                = evict (c.processedMessageIds ++ [fingerprint i m]) := by
              simp [onPushMessage, hid, hwf, hdup, hp]
            rw [heq]
            exact hins _
          · have heq : (onPushMessage c (.parsed m)).1.processedMessageIds
                = evict (c.processedMessageIds ++ [fingerprint i m]) := by
              simp [onPushMessage, hid, hwf, hdup, hp]
            rw [heq]
            exact hins _
      · have hwf' : (m.hasResult || m.hasError) = false := by
          cases hb : (m.hasResult || m.hasError) <;> simp_all
        have heq : onPushMessage c (.parsed m) = (c, [.logLine "non-rpc message"]) := by
          simp [onPushMessage, hid, hwf']
        rw [heq]
        exact hkeep _ rfl

/-- Claim C9 witness: processing a well-formed response on a fresh connector
keeps the cache within the bound. -/
theorem c9_witness :
    ((onPushMessage Connector.init
        (.parsed { id := some (.num 1), hasResult := true, hasError := false,
                   ser := "r1" })).1.processedMessageIds.length ≤ CACHE_BOUND)
    ∧ ∃ ins k, ins.length ≤ 1
        ∧ (onPushMessage Connector.init
            (.parsed { id := some (.num 1), hasResult := true, hasError := false,
                       ser := "r1" })).1.processedMessageIds
            = (Connector.init.processedMessageIds ++ ins).drop k
        ∧ (onPushMessage Connector.init
            (.parsed { id := some (.num 1), hasResult := true, hasError := false,
                       ser := "r1" })).1.processedMessageIds.length
            = min (Connector.init.processedMessageIds.length + ins.length) CACHE_BOUND :=
  c9_cache_bound Connector.init _ (by decide)

theorem waitOk_false (received : Nat → Bool) (h : ∀ a, received a = false) :
    waitOk received = false := h _

theorem waitFrom_le (received : Nat → Bool) (fuel : Nat) :
    ∀ a, a ≤ MAX_WAIT_ATTEMPTS → waitFrom received a fuel ≤ MAX_WAIT_ATTEMPTS := by
  induction fuel with
  | zero => intro a ha; exact ha
  | succ f ih =>
    intro a ha
    unfold waitFrom
    by_cases hr : received a
    · simpa [hr] using ha
    · by_cases hlt : a < MAX_WAIT_ATTEMPTS
      · simpa [hr, hlt] using ih (a + 1) hlt
      · simpa [hr, hlt] using ha

theorem waitOk_received (received : Nat → Bool) (h : waitOk received = true) :
    ∃ a, a ≤ MAX_WAIT_ATTEMPTS ∧ received a = true :=
  ⟨waitExit received, waitFrom_le received _ 0 (by omega), h⟩

/-- Claim C1 counterexample: dispatching the initial `initialize` request
(id 1) while the endpoint announcement never arrives: the handshake wait
times out and no HTTP POST is issued, but the Pending-Request Table still
holds the entry for id 1, because the `.catch` attached to the initialize
send only logs — contradicting the claim that a timed-out dispatch leaves no
table entry for its request id. -/
theorem c1_counterexample :
    (pfind (.num 1)
       (dispatchInit Connector.init
          { id := some (.num 1), method := "initialize", initOpts := none }
          (fun _ => false) .accepted).1.pendingRequests
      = some { id := some (.num 1), method := "initialize", initOpts := none })
    ∧ ((dispatchInit Connector.init
          { id := some (.num 1), method := "initialize", initOpts := none }
          (fun _ => false) .accepted).2.filter Action.isPost = []) := by
  have hw : waitOk (fun _ => false) = false := waitOk_false _ (fun _ => rfl)
  simp [dispatchInit, hw, Connector.init, pset, pfind, Action.isPost]

/-- Claim C1 (amended): for every request dispatched through `sendRequest`
on the post-initialization path, an HTTP POST occurs only if the
`sessionIdReceived` flag was observed set within the bounded polling window,
i.e. the Session Handshake reached Ready for the current connection attempt;
and if the flag is never set within the window, the dispatch fails with no
HTTP call ever made and no Pending-Request Table entry left for the request
id.  (The initial `initialize` dispatch is the exception the counterexample
forces: its handshake timeout leaves the table entry in place.) -/
theorem c1_handshake_gating (c : Connector) (req : Request) (i : RpcId)
    (received : Nat → Bool) (outcome : HttpOutcome) (hid : req.id = some i) :
    (((dispatch c req received outcome).2.filter Action.isPost) ≠ [] →
       ∃ a, a ≤ MAX_WAIT_ATTEMPTS ∧ received a = true)
    ∧ ((∀ a, received a = false) →
       ((dispatch c req received outcome).2.filter Action.isPost = []
        ∧ pfind i (dispatch c req received outcome).1.pendingRequests = none)) := by
  constructor
  · intro hpost
    by_cases hw : waitOk received = true
    · exact waitOk_received received hw
    · exfalso
      apply hpost
      have hw' : waitOk received = false := by
        cases hb : waitOk received
        · rfl
        · exact absurd hb hw
      simp [dispatch, hid, hw', Action.isPost]
  · intro hnone
    have hw := waitOk_false received hnone
    simp [dispatch, hid, hw, Action.isPost, pfind_pdel]

/-- Claim C1 witness: the spec scenario — request id 2, method "slow", the
handshake never completing — dispatched on the post-initialization path:
no POST, and no table entry for 2. -/
theorem c1_witness :
    (((dispatch Connector.init
        { id := some (.num 2), method := "slow", initOpts := none }
        (fun _ => false) .accepted).2.filter Action.isPost) ≠ [] →
       ∃ a, a ≤ MAX_WAIT_ATTEMPTS ∧ (fun _ : Nat => false) a = true)
    ∧ ((∀ a, (fun _ : Nat => false) a = false) →
       ((dispatch Connector.init
          { id := some (.num 2), method := "slow", initOpts := none }
          (fun _ => false) .accepted).2.filter Action.isPost = []
        ∧ pfind (.num 2)
            (dispatch Connector.init
              { id := some (.num 2), method := "slow", initOpts := none }
              (fun _ => false) .accepted).1.pendingRequests = none)) :=
  c1_handshake_gating Connector.init
    { id := some (.num 2), method := "slow", initOpts := none }
    (.num 2) (fun _ => false) .accepted rfl

/-- Claim C5: on the post-initialization dispatch path (latest draft), when
the HTTP POST returns a non-success status or the send throws a transport
error, the Pending-Request Table entry for the request id is removed
(whether or not one pre-existed), the failure is logged on the side channel,
and exactly one POST is attempted — no retry at this layer. -/
theorem c5_dispatch_failure_cleanup (c : Connector) (req : Request) (i : RpcId)
    (received : Nat → Bool) (outcome : HttpOutcome) (hid : req.id = some i)
    (hready : waitOk received = true) (hfail : outcome ≠ .accepted) :
    pfind i (dispatch c req received outcome).1.pendingRequests = none
    ∧ ((dispatch c req received outcome).2.filter Action.isLog ≠ [])
    ∧ ((dispatch c req received outcome).2.filter Action.isPost).length = 1 := by
  cases outcome with
  | accepted => exact absurd rfl hfail
  | statusFail code =>
    simp [dispatch, hid, hready, sendAfterReady, Action.isLog, Action.isPost,
          pfind_pdel]
  | netFail =>
    simp [dispatch, hid, hready, sendAfterReady, Action.isLog, Action.isPost,
          pfind_pdel]

/-- Claim C5 witness: request id 7 dispatched with the handshake flag
already set, the send throwing a transport error: the entry is gone, the
failure logged, one POST attempted. -/
theorem c5_witness :
    pfind (.num 7)
      (dispatch Connector.init
        { id := some (.num 7), method := "ping", initOpts := none }
        (fun _ => true) .netFail).1.pendingRequests = none
    ∧ ((dispatch Connector.init
        { id := some (.num 7), method := "ping", initOpts := none }
        (fun _ => true) .netFail).2.filter Action.isLog ≠ [])
    ∧ ((dispatch Connector.init
        { id := some (.num 7), method := "ping", initOpts := none }
        (fun _ => true) .netFail).2.filter Action.isPost).length = 1 :=
  c5_dispatch_failure_cleanup Connector.init
    { id := some (.num 7), method := "ping", initOpts := none }
    (.num 7) (fun _ => true) .netFail rfl rfl (by decide)

/-- In the superseded second draft of `index.ts`, a failed POST leaves the
pending entry in place: `sendRequest` only logs, and because it swallows the
error the caller's cleanup `.catch` never fires.  Recorded for contrast with
`c5_dispatch_failure_cleanup`; the latest draft removes the entry inside
`sendRequest`. -/
theorem draft2_failed_post_keeps_entry :
    pfind (.num 7)
      (dispatchDraft2 Connector.init
        { id := some (.num 7), method := "ping", initOpts := none }
        (fun _ => true) "f1" (.statusFail 500)).1.pendingRequests
      = some { id := some (.num 7), method := "ping", initOpts := none } := by
  simp [dispatchDraft2, sendAfterReadyDraft2, Connector.init, pset, pfind]

/-- In the superseded second draft of `index.ts`, a handshake timeout does
not fail the dispatch: a fallback session id is fabricated and the POST is
issued anyway, carrying it.  Recorded for contrast with
`c1_handshake_gating`; the latest draft throws instead. -/
theorem draft2_posts_on_timeout :
    ((dispatchDraft2 Connector.init
        { id := some (.num 2), method := "slow", initOpts := none }
        (fun _ => false) "f2" .accepted).2.filter Action.isPost)
      = [.post (some "f2")
           { id := some (.num 2), method := "slow", initOpts := none }] := by
  have hw : waitOk (fun _ => false) = false := waitOk_false _ (fun _ => rfl)
  simp [dispatchDraft2, sendAfterReadyDraft2, hw, Action.isPost]

/-- Claim C6 counterexample: after six consecutive connection failures from
a fresh connector the supervisor has given up (`shouldReconnect` is false,
reconnection disabled), yet the trace contains no `process.exit` at all —
the exit call is present only in the first draft and commented out in the
later ones — contradicting the claim that reaching GivenUp makes the bridge
exit with a non-zero status. -/
theorem c6_counterexample :
    (runErrors Connector.init 6).1.shouldReconnect = false
    ∧ exitsOf (runErrors Connector.init 6).2 = [] := by decide

/-- Claim C6 (amended): across five consecutive failed connection attempts
from a fresh connector the scheduled reconnect delays double from the
1-second base — 1000, 2000, 4000, 8000, 16000 ms — hence are non-decreasing
and bounded by the five-attempt cap of 16 s; a sixth consecutive failure
transitions to the fatal GivenUp state, in which reconnection is disabled
and the failure is reported on the diagnostic channel, but the process is
not exited at this layer. -/
theorem c6_backoff_bound :
    delaysOf (runErrors Connector.init 5).2 = [1000, 2000, 4000, 8000, 16000]
    ∧ nondecreasing (delaysOf (runErrors Connector.init 5).2) = true
    ∧ (delaysOf (runErrors Connector.init 5).2).all
        (fun dl => decide (dl ≤ 16000)) = true
    ∧ (runErrors Connector.init 5).1.shouldReconnect = true
    ∧ (runErrors Connector.init 6).1.shouldReconnect = false
    ∧ delaysOf (runErrors Connector.init 6).2
        = delaysOf (runErrors Connector.init 5).2
    ∧ ((runErrors Connector.init 6).2.filter
        (fun a => decide (a = Action.logLine "giving up"))).length = 1
    ∧ exitsOf (runErrors Connector.init 6).2 = [] := by decide

theorem onPushMessage_sessionId (c : Connector) (d : SSEData) :
    (onPushMessage c d).1.sessionId = c.sessionId := by
  cases d with
  | malformed s => rfl
  | parsed m =>
    cases hid : m.id with
    | none => simp [onPushMessage, hid]
    | some i =>
      simp only [onPushMessage, hid]
      repeat' split
      all_goals rfl

theorem onError_sessionId (c : Connector) :
    (onError c).1.sessionId = c.sessionId := by
  unfold onError
  repeat' split
  all_goals rfl

/-- Claim C7: on every new connection establishment the `onopen` handler
resets the session token to unset (and the received flag to false) and
clears the Duplicate Suppression Cache, before any dispatch can read them;
and as long as the endpoint announcements of the new connection carry tokens
different from the prior connection's token (the server issues
per-connection tokens), the session token read at any point of the new
connection — in particular the one a dispatch attaches — is never the prior
connection's value. -/
theorem c7_reconnect_resets (c : Connector) (t0 : String) (evs : List Ev)
    (_hprior : c.sessionId = some t0)
    (hfresh : ∀ tok, Ev.endpointEv (some tok) ∈ evs → tok ≠ t0) :
    (stepEv c .connOpen).sessionId = none
    ∧ (stepEv c .connOpen).sessionIdReceived = false
    ∧ (stepEv c .connOpen).processedMessageIds = []
    ∧ ∀ p q, evs = p ++ q →
        (runEvs (stepEv c .connOpen) p).sessionId ≠ some t0 := by
  refine ⟨rfl, rfl, rfl, ?_⟩
  have key : ∀ (p : List Ev) (c' : Connector), c'.sessionId ≠ some t0 →
      (∀ tok, Ev.endpointEv (some tok) ∈ p → tok ≠ t0) →
      (runEvs c' p).sessionId ≠ some t0 := by
    intro p
    induction p with
    | nil => intro c' h _; exact h
    | cons e es ih =>
      intro c' h hf
      have hstep : (stepEv c' e).sessionId ≠ some t0 := by
        cases e with
        | connOpen => simp [stepEv]
        | endpointEv o =>
          cases o with
          | none => simpa [stepEv] using h
          | some tok =>
            have htok : tok ≠ t0 := hf tok (by simp)
            simp only [stepEv]
            exact fun hq => htok (Option.some.inj hq)
        | push d =>
          simpa [stepEv, onPushMessage_sessionId] using h
        | connErr =>
          simpa [stepEv, onError_sessionId] using h
      have htl : ∀ tok, Ev.endpointEv (some tok) ∈ es → tok ≠ t0 :=
        fun tok hm => hf tok (List.mem_cons_of_mem _ hm)
      simpa [runEvs, List.foldl_cons] using ih (stepEv c' e) hstep htl
  intro p q hpq
  refine key p _ (by simp [stepEv]) ?_
  intro tok hm
  refine hfresh tok ?_
  rw [hpq]
  exact List.mem_append_left q hm

/-- Claim C7 witness: a connector holding the prior connection's token "aa"
goes through reconnect and the new connection announces token "bb": the
token is reset on open, the cache is empty, and no prefix of the new
connection's events ever exposes "aa" again. -/
theorem c7_witness :
    (stepEv connPrior .connOpen).sessionId = none
    ∧ (stepEv connPrior .connOpen).sessionIdReceived = false
    ∧ (stepEv connPrior .connOpen).processedMessageIds = []
    ∧ ∀ p q, ([Ev.endpointEv (some "bb")] : List Ev) = p ++ q →
        (runEvs (stepEv connPrior .connOpen) p).sessionId ≠ some "aa" :=
  c7_reconnect_resets connPrior "aa" [Ev.endpointEv (some "bb")] rfl
    (by
      intro tok hm
      have htok : tok = "bb" := by
        have h := List.mem_singleton.mp hm
        injection h with h1
        exact Option.some.inj h1
      subst htok
      decide)

/-- Claim C10: before the first initialize request has been accepted, every
parsed stream-side request whose method is not "initialize" receives exactly
one synthesized JSON-RPC error response on the output stream carrying the
request's id, error code -32002 and message "Server not initialized"; the
state is unchanged and no dispatch toward the remote server is initiated. -/
theorem c10_preinit_error (env : EnvVars) (s : MainState) (r : Request)
    (hinit : s.isInit = false) (hm : r.method ≠ "initialize") :
    processLine env s (.req r)
      = (s, [.stdoutErr r.id (-32002) "Server not initialized"]) := by
  simp [processLine, hinit, hm]

/-- Claim C10 witness: a `tools/list` request with id 3 arriving before
initialization yields exactly the synthesized -32002 error response. -/
theorem c10_witness :
    processLine
      { server_url_lower := none, server_url_upper := none,
        api_token_lower := none, api_token_upper := none }
      MainState.start
      (.req { id := some (.num 3), method := "tools/list", initOpts := none })
      = (MainState.start,
         [.stdoutErr (some (.num 3)) (-32002) "Server not initialized"]) :=
  c10_preinit_error _ MainState.start
    { id := some (.num 3), method := "tools/list", initOpts := none }
    rfl (by decide)

theorem splitNl_ne_nil : ∀ l : Str, splitNl l ≠ []
  | [] => by simp [splitNl]
  | ch :: cs => by
    by_cases h : ch = '\n'
    · simp [splitNl, h]
    · simp only [splitNl, h, if_false]
      cases hq : splitNl cs with
      | nil => simp
      | cons s rest => simp

theorem splitNl_no_nl (l : Str) (h : '\n' ∉ l) : splitNl l = [l] := by
  induction l with
  | nil => rfl
  | cons ch cs ih =>
    have hch : ch ≠ '\n' := fun he => h (he ▸ List.mem_cons_self ch cs)
    have hcs : '\n' ∉ cs := fun hm => h (List.mem_cons_of_mem _ hm)
    simp [splitNl, hch, ih hcs]

theorem splitNl_newline_split (buf rest : Str) (h : '\n' ∉ buf) :
    splitNl (buf ++ '\n' :: rest) = buf :: splitNl rest := by
  induction buf with
  | nil => simp [splitNl]
  | cons ch cs ih =>
    have hch : ch ≠ '\n' := fun he => h (he ▸ List.mem_cons_self ch cs)
    have hcs : '\n' ∉ cs := fun hm => h (List.mem_cons_of_mem _ hm)
    simp [splitNl, hch, ih hcs]

theorem lastPart_splitNl_no_nl (x : Str) : '\n' ∉ lastPart (splitNl x) := by
  induction x with
  | nil => simp [splitNl, lastPart]
  | cons ch cs ih =>
    by_cases hch : ch = '\n'
    · cases hq : splitNl cs with
      | nil => exact absurd hq (splitNl_ne_nil cs)
      | cons s rest =>
        rw [hq] at ih
        simpa [splitNl, hch, hq, lastPart] using ih
    · cases hq : splitNl cs with
      | nil => exact absurd hq (splitNl_ne_nil cs)
      | cons s rest =>
        rw [hq] at ih
        cases rest with
        | nil =>
          simp only [splitNl, hch, if_neg hch, hq, lastPart] at ih ⊢
          intro hm
          rcases List.mem_cons.mp hm with h1 | h2
          · exact hch h1.symm
          · exact ih h2
        | cons r t =>
          simpa [splitNl, hch, hq, lastPart] using ih

theorem feed_eq_foldChar {V : Type} (parse : Str → Option V) :
    ∀ (chunk : Str) (st : Str × List V), '\n' ∉ st.1 →
      feed parse st chunk = chunk.foldl (feedChar parse) st := by
  intro chunk
  induction chunk with
  | nil =>
    intro st hb
    obtain ⟨buf, outs⟩ := st
    simp only [feed, List.append_nil, List.foldl_nil]
    rw [splitNl_no_nl buf hb]
    simp [initParts, lastPart]
  | cons ch rest ih =>
    intro st hb
    obtain ⟨buf, outs⟩ := st
    by_cases hch : ch = '\n'
    · subst hch
      have hsplit := splitNl_newline_split buf rest hb
      have hq := splitNl_ne_nil rest
      rw [List.foldl_cons]
      have hstep : feedChar parse (buf, outs) '\n'
          = ([], outs ++ (if isBlank buf then [] else (parse buf).toList)) := by
        simp [feedChar]
      rw [hstep, ← ih _ (by simp)]
      simp only [feed, List.nil_append, hsplit]
      cases hqr : splitNl rest with
      | nil => exact absurd hqr hq
      | cons s t =>
        have hinit : initParts (buf :: s :: t) = buf :: initParts (s :: t) := rfl
        have hlast : lastPart (buf :: s :: t) = lastPart (s :: t) := rfl
        rw [hinit, hlast]
        simp only [List.filterMap_cons]
        by_cases hbl : isBlank buf
        · simp [hbl]
        · cases hp : parse buf with
          | none => simp [hbl, hp]
          | some v => simp [hbl, hp]
    · rw [List.foldl_cons]
      have hstep : feedChar parse (buf, outs) ch = (buf ++ [ch], outs) := by
        simp [feedChar, hch]
      have hb2 : '\n' ∉ buf ++ [ch] := by
        intro hm
        rcases List.mem_append.mp hm with h1 | h2
        · exact hb h1
        · exact hch (List.mem_singleton.mp h2).symm
      rw [hstep, ← ih _ hb2]
      simp only [feed]
      rw [List.append_assoc]
      simp

theorem foldl_feed_join {V : Type} (parse : Str → Option V) :
    ∀ (cs : List Str) (st : Str × List V), '\n' ∉ st.1 →
      cs.foldl (feed parse) st = (cs.flatten).foldl (feedChar parse) st := by
  intro cs
  induction cs with
  | nil => intro st _; rfl
  | cons c cs ih =>
    intro st hb
    rw [List.foldl_cons, List.flatten_cons, List.foldl_append,
        ← feed_eq_foldChar parse c st hb]
    have hb2 : '\n' ∉ (feed parse st c).1 := by
      simp only [feed]
      exact lastPart_splitNl_no_nl _
    exact ih _ hb2

theorem foldChar_no_nl {V : Type} (parse : Str → Option V) :
    ∀ (t buf : Str) (outs : List V), '\n' ∉ t →
      t.foldl (feedChar parse) (buf, outs) = (buf ++ t, outs) := by
  intro t
  induction t with
  | nil => intro buf outs _; simp
  | cons ch rest ih =>
    intro buf outs ht
    have hch : ch ≠ '\n' := fun he => ht (he ▸ List.mem_cons_self ch rest)
    have hrest : '\n' ∉ rest := fun hm => ht (List.mem_cons_of_mem _ hm)
    rw [List.foldl_cons]
    have hstep : feedChar parse (buf, outs) ch = (buf ++ [ch], outs) := by
      simp [feedChar, hch]
    rw [hstep, ih _ _ hrest, List.append_assoc]
    simp

theorem foldChar_encoded {V : Type} (parse : Str → Option V) (serialize : V → Str)
    (hround : ∀ v, parse (serialize v) = some v)
    (hnl : ∀ v, '\n' ∉ serialize v)
    (hnb : ∀ v, isBlank (serialize v) = false) :
    ∀ (vs : List V) (t : Str) (outs : List V), '\n' ∉ t →
      (encodeAll serialize vs ++ t).foldl (feedChar parse) ([], outs)
        = (t, outs ++ vs) := by
  intro vs
  induction vs with
  | nil =>
    intro t outs ht
    simp only [encodeAll, List.map_nil, List.flatten_nil, List.nil_append]
    rw [foldChar_no_nl parse t [] outs ht]
    simp
  | cons v vs ih =>
    intro t outs ht
    have henc : encodeAll serialize (v :: vs) ++ t
        = serialize v ++ ('\n' :: (encodeAll serialize vs ++ t)) := by
      simp [encodeAll, List.append_assoc]
    rw [henc, List.foldl_append,
        foldChar_no_nl parse (serialize v) [] outs (hnl v), List.foldl_cons]
    have hstep : feedChar parse ([] ++ serialize v, outs) '\n'
        = ([], outs ++ [v]) := by
      simp [feedChar, hnb v, hround v]
    rw [hstep, ih t (outs ++ [v]) ht, List.append_assoc]
    rfl

/-- Claim C8: for any finite sequence of values whose serialization is
newline-free, non-blank and inverted by the parse function (as holds for
`JSON.stringify` and `JSON.parse` on valid JSON values), encoding each value
as its serialization followed by a single newline and feeding the
concatenation back through the framing decoder in any chunking of the byte
stream yields exactly the original sequence of values, in order, with the
trailing segment after the last newline retained as the buffer for the next
chunk. -/
theorem c8_framing_roundtrip {V : Type} (parse : Str → Option V)
    (serialize : V → Str)
    (hround : ∀ v, parse (serialize v) = some v)
    (hnl : ∀ v, '\n' ∉ serialize v)
    (hnb : ∀ v, isBlank (serialize v) = false)
    (vs : List V) (cs : List Str) (t : Str) (ht : '\n' ∉ t)
    (hcs : cs.flatten = encodeAll serialize vs ++ t) :
    cs.foldl (feed parse) ([], []) = (t, vs) := by
  rw [foldl_feed_join parse cs ([], []) (by simp), hcs,
      foldChar_encoded parse serialize hround hnl hnb vs t [] ht]
  simp

/-- Claim C8 witness: the two-value sequence (true, false) serialized as
"t" and "f", encoded and fed as the chunks "t" and "\nf\nx" — a chunk
boundary in the middle of a frame and a trailing partial segment "x":
decoding yields exactly (true, false) and retains "x" in the buffer. -/
theorem c8_witness :
    ([['t'], ['\n', 'f', '\n', 'x']] : List Str).foldl
      (feed (fun l => if l = ['t'] then some true
                      else if l = ['f'] then some false else none))
      ([], [])
      = (['x'], [true, false]) :=
  c8_framing_roundtrip
    (fun l => if l = ['t'] then some true
              else if l = ['f'] then some false else none)
    (fun b => if b then ['t'] else ['f'])
    (by intro v; cases v <;> rfl)
    (by intro v; cases v <;> decide)
    (by intro v; cases v <;> rfl)
    [true, false] [['t'], ['\n', 'f', '\n', 'x']] ['x']
    (by decide) (by decide)

end UCC
